import Mathlib

/-!
Shallow embedding of the CHAMP/chimp image-alignment pipeline
(`src/misc.py`, `src/champ/align.py`, `src/champ/imagedata.py`,
`src/chimp/align.py`) together with theorems settling the frozen claims
about it.  Python integers are modelled as `Nat`/`Int`; Python 2 float
`round` on exact dyadic values is modelled by exact half-away-from-zero
rounding on integer fractions; fallible paths are modelled explicitly.
-/

namespace Misc

/-- Python `int.bit_length`: the number of bits needed for the absolute
value of the integer (`(0).bit_length() = 0`, `(-1).bit_length() = 1`). -/
def pyBitLength (z : ℤ) : ℕ := Nat.size z.natAbs

/-- Embedding of `misc.next_power_of_2(x) = 1 << (int(np.ceil(x))-1).bit_length()`
for integer arguments (where `np.ceil` is the identity). -/
def next_power_of_2 (x : ℤ) : ℤ := 2 ^ pyBitLength (x - 1)

end Misc

namespace ImageDataM

/-- A padded FFT canvas: its shape and its pixel contents.  Pixels are the
(median-normalised) float values of the source image, modelled as `ℤ`-valued
since only their placement matters here. -/
structure PaddedCanvas where
  rows : ℕ
  cols : ℕ
  entry : ℕ → ℕ → ℤ

/-- Embedding of `ImageData.set_fft(self, padding)` (src/champ/imagedata.py,
lines 25-36).  The source computes `totalx, totaly = padding + image.shape`,
`w = next_power_of_2(totalx)`, `h = next_power_of_2(totaly)`, and calls
`np.pad(image, ((padding[0], w-totalx), (padding[1], h-totaly)))` in constant
(zero) mode; the FFT is then taken over the padded canvas.  The image is a
function `f` of shape `(H, W)`; `np.pad` prepends `pad_r`/`pad_c` zero rows
and columns and appends zeros up to the computed shape. -/
def set_fft (H W : ℕ) (f : ℕ → ℕ → ℤ) (pad_r pad_c : ℕ) : PaddedCanvas :=
  let totalx := pad_r + H
  let totaly := pad_c + W
  let w := (Misc.next_power_of_2 (totalx : ℤ)).toNat
  let h := (Misc.next_power_of_2 (totaly : ℤ)).toNat
  { rows := pad_r + H + (w - totalx)
    cols := pad_c + W + (h - totaly)
    entry := fun i j =>
      if pad_r ≤ i ∧ i < pad_r + H ∧ pad_c ≤ j ∧ j < pad_c + W then
        f (i - pad_r) (j - pad_c)
      else 0 }

end ImageDataM

namespace ChampAlign

/-- Contents of the stats file at a given path: absent, present but
unparsable (`stats.AlignmentStats().from_file` raising `TypeError` or
`ValueError`), or parsed with a score. -/
inductive StatsFile where
  | absent : StatsFile
  | malformed : StatsFile
  | good : ℤ → StatsFile
deriving DecidableEq, Repr

/-- Embedding of `load_existing_score(stats_file_path)` (src/champ/align.py,
lines 348-355): the parsed score when the file exists and parses, `0` when
parsing raises or the file is absent. -/
def load_existing_score : StatsFile → ℤ
  | StatsFile.absent => 0
  | StatsFile.malformed => 0
  | StatsFile.good s => s

/-- Embedding of the stats-file effect of `write_output(image_index,
base_name, fastq_image_aligner, ...)` (src/champ/align.py, lines 358-391),
restricted to the stats file at the target path.  `existing` is the current
file state, `new_score` the candidate aligner's `alignment_stats.score`.
The source computes `existing_score = load_existing_score(...)`, returns
`False` (writing nothing) when `existing_score > 0`, and otherwise writes
the candidate's serialized stats and returns `True`.  The result is the
return value paired with the resulting file state. -/
def write_output (existing : StatsFile) (new_score : ℤ) : Bool × StatsFile :=
  let existing_score := load_existing_score existing
  if existing_score > 0 then (false, existing)
  else (true, StatsFile.good new_score)

/-- Result of one evaluation of `result_queue.get()` in Python:
`Queue.get()` with the default `block=True` and no timeout returns the head
item when the queue is non-empty and otherwise blocks indefinitely; it never
raises `Queue.Empty`. -/
inductive GetResult (α : Type) where
  | item : α → GetResult α
  | emptyExc : GetResult α
  | blocked : GetResult α
deriving DecidableEq

/-- Semantics of Python `Queue.get()` (blocking, no timeout). -/
def queue_get_blocking {α : Type} : List α → GetResult α
  | [] => GetResult.blocked
  | a :: _ => GetResult.item a

/-- What one iteration of a queue-draining loop does. -/
inductive LoopAction (α : Type) where
  | process : α → LoopAction α
  | exit : LoopAction α
  | continueLoop : LoopAction α
  | blocked : LoopAction α
deriving DecidableEq

/-- Embedding of one iteration of the loop in `write_thread(result_queue,
processing_done_event, ...)` (src/champ/align.py, lines 105-119).  The body
calls the blocking `result_queue.get()`; on an item it writes the output and
continues; the `except Queue.Empty` branch would exit when
`processing_done_event.is_set()` and continue otherwise, but a blocking
`get()` never raises `Queue.Empty`, so an empty queue blocks the thread. -/
def write_thread_step {α : Type} (processing_done_event : Bool)
    (result_queue : List α) : LoopAction α :=
  match queue_get_blocking result_queue with
  | GetResult.item a => LoopAction.process a
  | GetResult.emptyExc =>
      if processing_done_event then LoopAction.exit else LoopAction.continueLoop
  | GetResult.blocked => LoopAction.blocked

/-- Builtin names available to any Python function body. -/
def pyBuiltins : List String :=
  ["max", "min", "len", "int", "float", "range", "reversed", "dict",
   "list", "set", "open", "print"]

/-- Module-level names bound in `champ.align` when `run_data_channel` runs:
the imports of src/champ/align.py (lines 1-17), the module globals `log` and
`stats_regex` (lines 19-20), and the functions defined in the module. -/
def champAlignModuleNames : List String :=
  ["matplotlib", "plt", "GridImages", "plotting", "fastqimagealigner",
   "stats", "error", "Counter", "defaultdict", "functools", "h5py",
   "logging", "multiprocessing", "Manager", "threading", "Queue", "os",
   "sys", "re", "deepcopy", "log", "stats_regex",
   "align_fiducial", "align_fiducial_thread", "write_thread",
   "run_data_channel", "perform_alignment", "make_output_directories",
   "get_end_tiles", "build_end_tiles", "extract_rc_info",
   "load_aligned_stats_files", "load_image",
   "decide_default_tiles_and_columns", "find_bounds",
   "check_column_for_alignment", "iterate_all_images", "load_read_names",
   "process_alignment_image", "process_data_image", "load_existing_score",
   "write_output"]

/-- One statement of a Python function body: the names it reads, the names
it binds, and whether it creates the multiprocessing pool. -/
structure PyStep where
  reads : List String
  binds : List String
  createsPool : Bool
deriving Repr

/-- The statements of `run_data_channel(h5_filenames, channel_name,
path_info, alignment_tile_data, all_tile_data, metadata, clargs)`
(src/champ/align.py, lines 122-140), in order, with the names each one
reads and binds.  The pool is created at the `multiprocessing.Pool` call
(line 133). -/
def run_data_channel_steps : List PyStep :=
  [⟨["max", "multiprocessing"], ["num_processes"], false⟩,
   ⟨["log", "num_processes", "chunksize"], [], false⟩,
   ⟨["log"], [], false⟩,
   ⟨["fastqimagealigner", "metadata"], ["fastq_image_aligner"], false⟩,
   ⟨["fastq_image_aligner", "alignment_tile_data"], [], false⟩,
   ⟨["log"], [], false⟩,
   ⟨["functools", "process_data_image", "path_info", "all_tile_data",
     "clargs", "channel_name", "fastq_image_aligner"],
    ["second_processor"], false⟩,
   ⟨["multiprocessing", "num_processes"], ["pool"], true⟩,
   ⟨["log", "num_processes"], [], false⟩,
   ⟨["pool", "second_processor", "load_aligned_stats_files",
     "h5_filenames", "metadata", "path_info", "chunksize", "sys"], [], false⟩,
   ⟨["log"], [], false⟩,
   ⟨["fastq_image_aligner"], [], false⟩,
   ⟨["pool"], [], false⟩]

/-- The parameters of `run_data_channel` (src/champ/align.py, line 122). -/
def run_data_channel_params : List String :=
  ["h5_filenames", "channel_name", "path_info", "alignment_tile_data",
   "all_tile_data", "metadata", "clargs"]

/-- Execute statements under Python name resolution: each read name must be
bound among the locals so far, the module globals, or the builtins;
the first unbound name raises `NameError`, aborting the rest.  Returns
the name that raised (if any) and whether the pool had been created
by then. -/
def runPySteps (env : List String) : List PyStep → Bool → Option String × Bool
  | [], poolCreated => (none, poolCreated)
  | step :: rest, poolCreated =>
      match step.reads.find? (fun nm => !(env.contains nm)) with
      | some nm => (some nm, poolCreated)
      | none => runPySteps (env ++ step.binds) rest (poolCreated || step.createsPool)

/-- Embedding of a call to `run_data_channel`: run its statements with the
parameters, module globals and builtins in scope. -/
def run_data_channel : Option String × Bool :=
  runPySteps (pyBuiltins ++ champAlignModuleNames ++ run_data_channel_params)
    run_data_channel_steps false

/-- State of a `FastqImageAligner` as far as these claims observe it:
which tiles hit during rough alignment and whether the image data, the
sexcat catalog and rough alignment have been applied. -/
structure FIA where
  hitting_tiles : List String
  imageSet : Bool
  sexcatSet : Bool
  roughAligned : Bool
deriving DecidableEq, Repr

/-- Modelled from the spec: `fastqimagealigner.FastqImageAligner(...)`
(module `fastqimagealigner` is not under src/).  A freshly constructed
aligner has no hitting tiles and nothing bound yet, as the source comment
at src/champ/align.py line 317 records ("fit.hitting_tiles will be an
empty list"). -/
def fresh_fia : FIA := ⟨[], false, false, false⟩

/-- Embedding of `process_alignment_image(snr, sequencing_chip, base_name,
um_per_pixel, image, possible_tile_keys, fia)` (src/champ/align.py, lines
314-325).  `catExists` is whether `os.path.exists(sexcat_fpath)` holds for
the image's `.cat` file; `roughOutcome` is the set of hitting tiles that
`fia.rough_align(...)` would compute for this image.  When the catalog file
is absent the function returns the aligner unchanged without binding the
image or rough-aligning; otherwise it binds image and catalog and
rough-aligns. -/
def process_alignment_image (catExists : Bool) (roughOutcome : List String)
    (fia : FIA) : FIA :=
  if !catExists then fia
  else { hitting_tiles := roughOutcome, imageSet := true, sexcatSet := true,
         roughAligned := true }

/-- Embedding of what `align_fiducial_thread` does with a processed image
(src/champ/align.py, lines 89-99): a result is enqueued for writing only
when `fia.hitting_tiles` is non-empty and precision alignment does not
raise `ValueError`. -/
def thread_enqueues_result (fia : FIA) (precisionOk : Bool) : Bool :=
  !fia.hitting_tiles.isEmpty && precisionOk

/-- Rows probed by `check_column_for_alignment` (src/champ/align.py, line
263): `for row in (3, 4, 2)`. -/
def check_rows : List ℕ := [3, 4, 2]

/-- Embedding of the loop body of `check_column_for_alignment(channel, snr,
sequencing_chip, um_per_pixel, fia, end_tiles, column, possible_tile_keys,
h5_filename)` (src/champ/align.py, lines 257-277).  `grid r` is
`grid.get(r, column)` (`none` when the image is missing), and `hitting r`
is the `hitting_tiles` key list that `process_alignment_image` yields for
the row-`r` image.  A missing image logs a warning and returns without
recording; a row with hits records `([tile.key ...], image.column)` into
`end_tiles` and stops; a row without hits moves on to the next row. -/
def check_column_for_alignment (grid : ℕ → Option Unit)
    (hitting : ℕ → List String) (column : ℕ) : Option (List String × ℕ) :=
  go check_rows grid hitting column
where
  go : List ℕ → (ℕ → Option Unit) → (ℕ → List String) → ℕ →
      Option (List String × ℕ)
  | [], _, _, _ => none
  | r :: rs, grid, hitting, column =>
      match grid r with
      | none => none
      | some _ =>
          if (hitting r).isEmpty then go rs grid hitting column
          else some (hitting r, column)

/-- Embedding of `iterate_all_images(h5_filenames, end_tiles, channel)`
(src/champ/align.py, lines 280-292) for a single acquisition file:
`for column in range(min_column, max_column): for row in range(grid._height)`
yields `(row, column, tile_map[image.column])` for each present image
(`gridImage row column` is whether `grid.get(row, column)` is not `None`;
a present image at `(row, column)` has `image.column = column`). -/
def iterate_all_images (gridHeight : ℕ) (gridImage : ℕ → ℕ → Bool)
    (min_column max_column : ℕ) (tile_map : ℕ → List String) :
    List (ℕ × ℕ × List String) :=
  (List.range' min_column (max_column - min_column)).flatMap fun column =>
    (List.range gridHeight).filterMap fun row =>
      if gridImage row column then some (row, column, tile_map column) else none

/-- Helper for splitting a character list on `':'`: accumulates the current
field (reversed) and emits it at each separator, as Python `str.split(':')`
does. -/
def splitColonAux : List Char → List Char → List (List Char)
  | [], acc => [acc.reverse]
  | c :: cs, acc =>
      if c = ':' then acc.reverse :: splitColonAux cs []
      else splitColonAux cs (c :: acc)

/-- Embedding of Python `s.split(':')`. -/
def splitColon (s : String) : List String :=
  (splitColonAux s.toList []).map String.mk

/-- Embedding of Python `':'.join(parts)`, used to model the first element
that `rsplit` leaves unsplit. -/
def joinColon : List String → String
  | [] => ""
  | [x] => x
  | x :: xs => x ++ ":" ++ joinColon xs

/-- Embedding of Python `s.strip()`: drop whitespace from both ends. -/
def pyStrip (s : String) : String :=
  String.mk
    ((((s.toList.dropWhile Char.isWhitespace).reverse).dropWhile
        Char.isWhitespace).reverse)

/-- Embedding of Python `s.rsplit(':', 4)`: split on `':'` from the right
with at most 4 splits, so the result has at most 5 parts and the first part
carries any remaining `':'`-joined prefix. -/
def rsplitColon4 (s : String) : List String :=
  let fs := splitColon s
  if fs.length ≤ 5 then fs
  else joinColon (fs.take (fs.length - 4)) :: fs.drop (fs.length - 4)

/-- Embedding of the per-line work of `load_read_names` (src/champ/align.py,
lines 301-309): strip the line, `rsplit(':', 4)`, take slice `[1:3]`; the
unpacking `lane, tile = ...` raises `ValueError` (caught: line skipped with
a warning) unless the slice has exactly two elements; otherwise the key is
`'lane{lane}tile{tile}'` and the stripped line is the grouped read name. -/
def parse_read_name_line (line : String) : Option (String × String) :=
  let name := pyStrip line
  match ((rsplitColon4 name).drop 1).take 2 with
  | [lane, tile] => some ("lane" ++ lane ++ "tile" ++ tile, name)
  | _ => none

/-- One iteration of the loop in `load_read_names(file_path)`
(src/champ/align.py, lines 295-311): a line that parses adds its stripped
read name to the set under its `'lane{lane}tile{tile}'` key; an invalid
line only logs a warning.  The `defaultdict(set)` is modelled as a function
from key to the list of distinct names added under it (the final
`dict`-of-`list` comprehension keeps exactly these members). -/
def addReadLine (tiles : String → List String) (line : String) :
    String → List String :=
  match parse_read_name_line line with
  | none => tiles
  | some kv =>
      fun key =>
        if key = kv.1 then
          if kv.2 ∈ tiles kv.1 then tiles kv.1 else tiles kv.1 ++ [kv.2]
        else tiles key

/-- The full fold of `load_read_names` over the file's lines, starting from
the empty `defaultdict`. -/
def load_read_names (lines : List String) : String → List String :=
  lines.foldl addReadLine (fun _ => [])

end ChampAlign

namespace ChimpAlign

/-- Modelled from the spec: `chimp.constants.MISEQ_TILE_COUNT`
(`chimp/constants.py` is not under src/).  The chip-geometry code
enumerates MiSeq tiles `2101`-`2119` (src/chimp/align.py, lines 71-72), 19
tiles per lane side, and the spec interpolates tile numbers across that
range, so the clamp constant is the tile count 19. -/
def MISEQ_TILE_COUNT : ℕ := 19

/-- Decimal value of a digit character (`int` parsing of one digit). -/
def digitVal (c : Char) : ℕ := c.toNat - 48

/-- Decimal parsing of a digit string, as Python `int` does on a string of
digits. -/
def parseDigits : List Char → ℕ → ℕ
  | [], acc => acc
  | c :: cs, acc => parseDigits cs (acc * 10 + digitVal c)

/-- Embedding of `int(tile[-4:])` (src/chimp/align.py, lines 224-225): the
number formed by the last four characters of a tile key such as
`"lane1tile2119"`. -/
def tile_number (tile : String) : ℕ :=
  parseDigits (tile.toList.drop (tile.toList.length - 4)) 0

/-- Character for a decimal digit. -/
def digitChar : ℕ → Char
  | 0 => '0' | 1 => '1' | 2 => '2' | 3 => '3' | 4 => '4'
  | 5 => '5' | 6 => '6' | 7 => '7' | 8 => '8' | _ => '9'

/-- Most-significant-first decimal digit characters of `n`, fuel-indexed
(`fuel > n` suffices). -/
def natDigitsAux : ℕ → ℕ → List Char
  | 0, _ => []
  | _ + 1, 0 => []
  | fuel + 1, n => natDigitsAux fuel (n / 10) ++ [digitChar (n % 10)]

/-- Embedding of Python `str(n)` for a natural number. -/
def natToString (n : ℕ) : String :=
  if n = 0 then "0" else String.mk (natDigitsAux (n + 1) n)

/-- Embedding of `format_tile_number(number)` (src/chimp/align.py, lines
251-254): `'lane1tile{0}'.format(number)`. -/
def format_tile_number (number : ℕ) : String := "lane1tile" ++ natToString number

/-- Python 2 `int(round(p / q))` for non-negative `p` and positive `q`:
`round` rounds half away from zero, which for non-negative fractions is
`floor(p/q + 1/2) = (2p + q) / (2q)` in integer division.  The source's
float quotients are exact dyadic values at the inputs considered here. -/
def pyRoundDiv (p q : ℕ) : ℕ := (2 * p + q) / (2 * q)

/-- Embedding of `get_expected_tile_map(left_tiles, right_tiles,
min_column, max_column)` (src/chimp/align.py, lines 216-248).  Tile keys
are reduced to their last-four-digit numbers; `min_tile`/`max_tile` range
over both sides; the map is inverted when `min_tile` is not on the left;
`normalization_factor = (abs(max_tile - min_tile) + 1) / (max_column -
min_column)`; each loop column `c` in `range(min_column, max_column + 1)`
appends to `tile_map[c]` (or `tile_map[max_column - c]` when inverted) the
predicted tile `min(MISEQ_TILE_COUNT, max(0, int(round(nf * c)) - 1)) +
min_tile` and its `+1` / `-1` neighbours when those stay within
`[min_tile, max_tile]`.  The `defaultdict(list)` is modelled as the
function giving each column its appended keys in order. -/
def get_expected_tile_map (left_tiles right_tiles : List String)
    (min_column max_column : ℕ) : ℕ → List String :=
  let leftNums := left_tiles.map tile_number
  let rightNums := right_tiles.map tile_number
  let min_tile := ((leftNums ++ rightNums).min?).getD 0
  let max_tile := ((leftNums ++ rightNums).max?).getD 0
  let invert_map := !(leftNums.contains min_tile)
  let tileSpan := ((max_tile : ℤ) - (min_tile : ℤ)).natAbs + 1
  let colSpan := max_column - min_column
  fun col =>
    ((List.range' min_column (max_column + 1 - min_column)).filter
        (fun c => (if invert_map then max_column - c else c) = col)).flatMap
      fun c =>
        let expected : ℤ :=
          min (MISEQ_TILE_COUNT : ℤ)
              (max 0 ((pyRoundDiv (tileSpan * c) colSpan : ℤ) - 1))
            + (min_tile : ℤ)
        [format_tile_number expected.toNat]
          ++ (if expected < (max_tile : ℤ)
              then [format_tile_number (expected.toNat + 1)] else [])
          ++ (if expected > (min_tile : ℤ)
              then [format_tile_number (expected.toNat - 1)] else [])

end ChimpAlign

/-- Helper: `next_power_of_2 n ≥ n` for `n ≥ 1`. -/
theorem next_pow2_ge (n : ℤ) (h : 1 ≤ n) : n ≤ Misc.next_power_of_2 n := by
  unfold Misc.next_power_of_2 Misc.pyBitLength
  have hn : (n - 1).natAbs = (n - 1).toNat := by
    rcases Int.natAbs_eq (n - 1) with h1 | h1 <;> omega
  rw [hn]
  have hlt : (n - 1).toNat < 2 ^ Nat.size (n - 1).toNat := Nat.lt_size_self _
  have : ((n - 1).toNat : ℤ) < (2 : ℤ) ^ Nat.size (n - 1).toNat := by
    exact_mod_cast hlt
  omega

/-- Helper: `next_power_of_2` fixes powers of two. -/
theorem next_pow2_fixed (k : ℕ) : Misc.next_power_of_2 (2 ^ k) = 2 ^ k := by
  unfold Misc.next_power_of_2 Misc.pyBitLength
  have habs : ((2 : ℤ) ^ k - 1).natAbs = 2 ^ k - 1 := by
    have h1 : (1 : ℕ) ≤ 2 ^ k := Nat.one_le_two_pow
    have h2 : ((2 : ℤ) ^ k) = ((2 ^ k : ℕ) : ℤ) := by push_cast; ring
    omega
  rw [habs]
  have hsize : Nat.size (2 ^ k - 1) = k := by
    apply le_antisymm
    · exact Nat.size_le.mpr (by
        have h1 : (1 : ℕ) ≤ 2 ^ k := Nat.one_le_two_pow
        omega)
    · rcases Nat.eq_zero_or_pos k with hk0 | hk0
      · simp [hk0]
      · have : 2 ^ (k - 1) ≤ 2 ^ k - 1 := by
          have h1 : 2 ^ (k - 1) * 2 = 2 ^ k := by
            rw [← pow_succ]
            congr 1
            omega
          have h2 : 1 ≤ 2 ^ (k - 1) := Nat.one_le_two_pow
          omega
        have := Nat.lt_size.mpr this
        omega
  rw [hsize]

/-- Helper: for `1 ≤ n`, `n ≤ (next_power_of_2 n).toNat` and the `toNat`
image is a power of two. -/
theorem next_power_of_2_toNat_spec (n : ℕ) (h : 1 ≤ n) :
    n ≤ (Misc.next_power_of_2 (n : ℤ)).toNat ∧
    ∃ k : ℕ, (Misc.next_power_of_2 (n : ℤ)).toNat = 2 ^ k := by
  have hle := next_pow2_ge (n : ℤ) (by exact_mod_cast h)
  obtain ⟨k, hk⟩ : ∃ k : ℕ, Misc.next_power_of_2 (n : ℤ) = 2 ^ k :=
    ⟨Misc.pyBitLength ((n : ℤ) - 1), rfl⟩
  have hpow : ((2 : ℤ) ^ k) = ((2 ^ k : ℕ) : ℤ) := by push_cast; ring
  constructor
  · omega
  · exact ⟨k, by omega⟩

/-- C9: under the fitting hypotheses, `set_fft` produces a canvas of shape
`(next_power_of_2 (pad_r + H), next_power_of_2 (pad_c + W))`, both dimensions
powers of two; the image occupies the block offset by `(pad_r, pad_c)` and
every pixel outside that block (top/left pad and bottom/right fill) is zero. -/
theorem imagedata_set_fft_pads_to_power_of_two
    (H W pad_r pad_c : ℕ) (f : ℕ → ℕ → ℤ)
    (hx : 1 ≤ pad_r + H) (hy : 1 ≤ pad_c + W) :
    (ImageDataM.set_fft H W f pad_r pad_c).rows
        = (Misc.next_power_of_2 ((pad_r + H : ℕ) : ℤ)).toNat ∧
    (ImageDataM.set_fft H W f pad_r pad_c).cols
        = (Misc.next_power_of_2 ((pad_c + W : ℕ) : ℤ)).toNat ∧
    (∃ a : ℕ, (ImageDataM.set_fft H W f pad_r pad_c).rows = 2 ^ a) ∧
    (∃ b : ℕ, (ImageDataM.set_fft H W f pad_r pad_c).cols = 2 ^ b) ∧
    (∀ i j, pad_r ≤ i → i < pad_r + H → pad_c ≤ j → j < pad_c + W →
      (ImageDataM.set_fft H W f pad_r pad_c).entry i j = f (i - pad_r) (j - pad_c)) ∧
    (∀ i j, i < pad_r ∨ pad_r + H ≤ i ∨ j < pad_c ∨ pad_c + W ≤ j →
      (ImageDataM.set_fft H W f pad_r pad_c).entry i j = 0) := by
  obtain ⟨hlex, a, hax⟩ := next_power_of_2_toNat_spec (pad_r + H) hx
  obtain ⟨hley, b, hby⟩ := next_power_of_2_toNat_spec (pad_c + W) hy
  refine ⟨?_, ?_, ⟨a, ?_⟩, ⟨b, ?_⟩, ?_, ?_⟩
  · simp only [ImageDataM.set_fft]
    omega
  · simp only [ImageDataM.set_fft]
    omega
  · simp only [ImageDataM.set_fft]
    omega
  · simp only [ImageDataM.set_fft]
    omega
  · intro i j h1 h2 h3 h4
    simp only [ImageDataM.set_fft]
    rw [if_pos ⟨h1, h2, h3, h4⟩]
  · intro i j hout
    simp only [ImageDataM.set_fft]
    rw [if_neg (by omega)]

/-- Witness for C9: a concrete 1×2 image with padding (1, 1); the canvas is
2×4 and the hypotheses hold. -/
theorem imagedata_set_fft_pads_to_power_of_two_witness :
    1 ≤ 1 + 1 ∧ 1 ≤ 1 + 2 ∧
    ((ImageDataM.set_fft 1 2 (fun _ _ => 7) 1 1).rows
        = (Misc.next_power_of_2 ((1 + 1 : ℕ) : ℤ)).toNat ∧
     (ImageDataM.set_fft 1 2 (fun _ _ => 7) 1 1).cols
        = (Misc.next_power_of_2 ((1 + 2 : ℕ) : ℤ)).toNat ∧
     (∃ a : ℕ, (ImageDataM.set_fft 1 2 (fun _ _ => 7) 1 1).rows = 2 ^ a) ∧
     (∃ b : ℕ, (ImageDataM.set_fft 1 2 (fun _ _ => 7) 1 1).cols = 2 ^ b) ∧
     (∀ i j, 1 ≤ i → i < 1 + 1 → 1 ≤ j → j < 1 + 2 →
       (ImageDataM.set_fft 1 2 (fun _ _ => 7) 1 1).entry i j = (fun _ _ => (7 : ℤ)) (i - 1) (j - 1)) ∧
     (∀ i j, i < 1 ∨ 1 + 1 ≤ i ∨ j < 1 ∨ 1 + 2 ≤ j →
       (ImageDataM.set_fft 1 2 (fun _ _ => 7) 1 1).entry i j = 0)) :=
  ⟨by norm_num, by norm_num,
    imagedata_set_fft_pads_to_power_of_two 1 2 1 1 (fun _ _ => 7) (by norm_num) (by norm_num)⟩

/-- C8: for every integer `n ≥ 1`, `next_power_of_2 n` is a power of two,
is `≥ n`, and equals `n` whenever `n` is itself a power of two. -/
theorem misc_next_power_of_2_correct (n : ℤ) (h : 1 ≤ n) :
    (∃ k : ℕ, Misc.next_power_of_2 n = 2 ^ k) ∧
    n ≤ Misc.next_power_of_2 n ∧
    (∀ k : ℕ, n = 2 ^ k → Misc.next_power_of_2 n = n) := by
  refine ⟨⟨Misc.pyBitLength (n - 1), rfl⟩, next_pow2_ge n h, ?_⟩
  intro k hk
  subst hk
  exact next_pow2_fixed k

/-- Witness for C8 at `n = 5`: the hypothesis `1 ≤ 5` holds and the
conclusion specialises there. -/
theorem misc_next_power_of_2_correct_witness :
    (1 : ℤ) ≤ 5 ∧
    ((∃ k : ℕ, Misc.next_power_of_2 5 = 2 ^ k) ∧
      (5 : ℤ) ≤ Misc.next_power_of_2 5 ∧
      (∀ k : ℕ, (5 : ℤ) = 2 ^ k → Misc.next_power_of_2 5 = 5)) :=
  ⟨by norm_num, misc_next_power_of_2_correct 5 (by norm_num)⟩

/-- C1: the code evaluated at the spec's score-overwrite scenario.  With a
stored stats file of score 100, `write_output` refuses to write a candidate
of score 150 just as it refuses one of score 50 — it returns `False` and
leaves the file unchanged whenever the stored score is positive, never
comparing the two scores; only an absent (or malformed, i.e. score-0) file
is written. -/
theorem champ_write_output_skips_better_candidate :
    ChampAlign.write_output (ChampAlign.StatsFile.good 100) 150
      = (false, ChampAlign.StatsFile.good 100) ∧
    ChampAlign.write_output (ChampAlign.StatsFile.good 100) 50
      = (false, ChampAlign.StatsFile.good 100) ∧
    ChampAlign.write_output ChampAlign.StatsFile.absent 150
      = (true, ChampAlign.StatsFile.good 150) ∧
    ChampAlign.write_output ChampAlign.StatsFile.malformed 150
      = (true, ChampAlign.StatsFile.good 150) := by
  refine ⟨?_, ?_, ?_, ?_⟩ <;> decide

/-- C2: one iteration of `write_thread`'s loop with `processing_done_event`
set and the result queue empty blocks on `result_queue.get()` instead of
exiting — and no state at all can reach the `exit` branch, because the
blocking `get()` never raises `Queue.Empty`. -/
theorem champ_write_thread_blocks_instead_of_exiting :
    @ChampAlign.write_thread_step ℕ true [] = ChampAlign.LoopAction.blocked ∧
    @ChampAlign.write_thread_step ℕ true [] ≠ ChampAlign.LoopAction.exit ∧
    ∀ (done_flag : Bool) (q : List ℕ),
      @ChampAlign.write_thread_step ℕ done_flag q ≠ ChampAlign.LoopAction.exit := by
  refine ⟨rfl, by decide, ?_⟩
  intro done_flag q
  cases q <;> cases done_flag <;> simp [ChampAlign.write_thread_step,
    ChampAlign.queue_get_blocking]

/-- C3: resolving the names read by the statements of `run_data_channel`
(with its parameters, the `champ.align` module globals and the builtins in
scope) raises `NameError` on `chunksize` — at the `log.debug` statement on
line 124, before the `multiprocessing.Pool` on line 133 is ever created —
independently of the function's arguments. -/
theorem champ_run_data_channel_name_error_chunksize :
    ChampAlign.run_data_channel = (some "chunksize", false) := by decide

/-- C4 counterexample: with `left_tiles = [lane1tile2119]`, `right_tiles =
[lane1tile2111]`, `min_column = 0`, `max_column = 8`, interior column 7
maps to exactly two tile keys (`lane1tile2111`, `lane1tile2112`), not
three: loop column 1 predicts `round(1.125) - 1 = 0`, i.e. the minimum
tile 2111, so only the `+1` neighbour is added, and inversion places it at
map column `8 - 1 = 7`. -/
theorem chimp_tile_map_column7_has_two_keys :
    ChimpAlign.get_expected_tile_map ["lane1tile2119"] ["lane1tile2111"] 0 8 7
      = ["lane1tile2111", "lane1tile2112"] ∧
    (ChimpAlign.get_expected_tile_map ["lane1tile2119"] ["lane1tile2111"] 0 8 7).length
      ≠ 3 := by
  constructor <;> decide

/-- C4 amended: for `left_tiles = [lane1tile2119]`, `right_tiles =
[lane1tile2111]`, `min_column = 0`, `max_column = 8`, column 0's list
includes `lane1tile2119` and `lane1tile2118`, column 8's list includes
`lane1tile2111` and `lane1tile2112`, interior columns 1 through 6 map to
exactly three tile keys while interior column 7 maps to exactly two, and
every column maps to between 1 and 3 candidate keys. -/
theorem chimp_tile_map_boundary_amended :
    ("lane1tile2119" ∈ ChimpAlign.get_expected_tile_map ["lane1tile2119"] ["lane1tile2111"] 0 8 0 ∧
     "lane1tile2118" ∈ ChimpAlign.get_expected_tile_map ["lane1tile2119"] ["lane1tile2111"] 0 8 0) ∧
    ("lane1tile2111" ∈ ChimpAlign.get_expected_tile_map ["lane1tile2119"] ["lane1tile2111"] 0 8 8 ∧
     "lane1tile2112" ∈ ChimpAlign.get_expected_tile_map ["lane1tile2119"] ["lane1tile2111"] 0 8 8) ∧
    (∀ col ∈ ([1, 2, 3, 4, 5, 6] : List ℕ),
      (ChimpAlign.get_expected_tile_map ["lane1tile2119"] ["lane1tile2111"] 0 8 col).length = 3) ∧
    (ChimpAlign.get_expected_tile_map ["lane1tile2119"] ["lane1tile2111"] 0 8 7).length = 2 ∧
    (∀ col ∈ List.range 9,
      1 ≤ (ChimpAlign.get_expected_tile_map ["lane1tile2119"] ["lane1tile2111"] 0 8 col).length ∧
      (ChimpAlign.get_expected_tile_map ["lane1tile2119"] ["lane1tile2111"] 0 8 col).length ≤ 3) := by
  refine ⟨⟨?_, ?_⟩, ⟨?_, ?_⟩, ?_, ?_, ?_⟩ <;> decide

/-- Helper: two consecutive present elements determine `(l.drop n).take 2`. -/
theorem list_take_two_drop {α : Type} (l : List α) (n : ℕ) (a b : α)
    (ha : l[n]? = some a) (hb : l[n + 1]? = some b) :
    (l.drop n).take 2 = [a, b] := by
  induction l generalizing n with
  | nil => simp at ha
  | cons x xs ih =>
    cases n with
    | zero =>
      simp only [List.getElem?_cons_zero, Option.some.injEq] at ha
      subst ha
      cases xs with
      | nil => simp at hb
      | cons y ys =>
        simp only [List.getElem?_cons_succ, List.getElem?_cons_zero,
          Option.some.injEq] at hb
        subst hb
        rfl
    | succ m =>
      simp only [List.getElem?_cons_succ] at ha hb
      exact ih m ha hb

/-- Helper: on a line whose stripped text splits on `':'` into at least five
fields, `parse_read_name_line` succeeds, taking the fourth-from-last field
as lane and the third-from-last as tile (indices 3 and 2 of the reversed
field list). -/
theorem parse_read_name_line_five_fields (line : String)
    (h5 : 5 ≤ (ChampAlign.splitColon (ChampAlign.pyStrip line)).length) :
    ∃ lane tile,
      (ChampAlign.splitColon (ChampAlign.pyStrip line)).reverse[3]? = some lane ∧
      (ChampAlign.splitColon (ChampAlign.pyStrip line)).reverse[2]? = some tile ∧
      ChampAlign.parse_read_name_line line
        = some ("lane" ++ lane ++ "tile" ++ tile, ChampAlign.pyStrip line) := by
  set fs := ChampAlign.splitColon (ChampAlign.pyStrip line) with hfs
  have h4lt : fs.length - 4 < fs.length := by omega
  have h3lt : fs.length - 3 < fs.length := by omega
  refine ⟨fs[fs.length - 4], fs[fs.length - 3], ?_, ?_, ?_⟩
  · rw [List.getElem?_reverse (by omega)]
    rw [show fs.length - 1 - 3 = fs.length - 4 by omega]
    exact List.getElem?_eq_getElem h4lt
  · rw [List.getElem?_reverse (by omega)]
    rw [show fs.length - 1 - 2 = fs.length - 3 by omega]
    exact List.getElem?_eq_getElem h3lt
  · have hslice : ((ChampAlign.rsplitColon4 (ChampAlign.pyStrip line)).drop 1).take 2
        = [fs[fs.length - 4], fs[fs.length - 3]] := by
      unfold ChampAlign.rsplitColon4
      rw [← hfs]
      by_cases hle : fs.length ≤ 5
      · have hL5 : fs.length = 5 := by omega
        rw [if_pos hle]
        apply list_take_two_drop
        · rw [show (1 : ℕ) = fs.length - 4 by omega]
          exact List.getElem?_eq_getElem h4lt
        · rw [show (1 + 1 : ℕ) = fs.length - 3 by omega]
          exact List.getElem?_eq_getElem h3lt
      · rw [if_neg hle]
        rw [List.drop_succ_cons, List.drop_zero]
        apply list_take_two_drop
        · exact List.getElem?_eq_getElem h4lt
        · rw [show fs.length - 4 + 1 = fs.length - 3 by omega]
          exact List.getElem?_eq_getElem h3lt
    unfold ChampAlign.parse_read_name_line
    simp only [hslice]

/-- Helper: a line that parses to `(k, v)` puts `v` under key `k`. -/
theorem mem_addReadLine_self (tiles : String → List String) (line k v : String)
    (hp : ChampAlign.parse_read_name_line line = some (k, v)) :
    v ∈ ChampAlign.addReadLine tiles line k := by
  simp only [ChampAlign.addReadLine, hp]
  by_cases hv : v ∈ tiles k
  · simp [hv]
  · simp [hv]

/-- Helper: `addReadLine` never removes a stored read name. -/
theorem mem_addReadLine_mono (tiles : String → List String) (line k v : String)
    (h : v ∈ tiles k) : v ∈ ChampAlign.addReadLine tiles line k := by
  cases hp : ChampAlign.parse_read_name_line line with
  | none => simpa [ChampAlign.addReadLine, hp] using h
  | some kv =>
    simp only [ChampAlign.addReadLine, hp]
    split_ifs with hk hv
    · exact hk ▸ h
    · exact List.mem_append_left _ (hk ▸ h)
    · exact h

/-- Helper: folding further lines over the dictionary keeps stored names. -/
theorem mem_foldl_addReadLine (ls : List String) (tiles : String → List String)
    (k v : String) (h : v ∈ tiles k) :
    v ∈ (ls.foldl ChampAlign.addReadLine tiles) k := by
  induction ls generalizing tiles with
  | nil => simpa using h
  | cons l ls ih =>
    exact ih _ (mem_addReadLine_mono tiles l k v h)

/-- Helper: a member line parsing to `(k, v)` ends with `v` stored under
`k` after the whole fold. -/
theorem mem_load_read_names_fold (lines : List String)
    (tiles : String → List String) (line k v : String)
    (hmem : line ∈ lines)
    (hp : ChampAlign.parse_read_name_line line = some (k, v)) :
    v ∈ (lines.foldl ChampAlign.addReadLine tiles) k := by
  induction lines generalizing tiles with
  | nil => cases hmem
  | cons l ls ih =>
    rcases List.mem_cons.mp hmem with rfl | hmem2
    · exact mem_foldl_addReadLine ls _ k v (mem_addReadLine_self tiles line k v hp)
    · exact ih _ hmem2

/-- C5: for every line of the reads file whose stripped text splits on `':'`
into at least five fields, `load_read_names` takes the fields at indices 3
and 2 from the right (the fourth- and third-from-last fields) as
`(lane, tile)` and groups the stripped read name under the key
`'lane{lane}tile{tile}'`. -/
theorem champ_load_read_names_groups_by_lane_tile
    (lines : List String) (line : String)
    (hmem : line ∈ lines)
    (h5 : 5 ≤ (ChampAlign.splitColon (ChampAlign.pyStrip line)).length) :
    ∃ lane tile,
      (ChampAlign.splitColon (ChampAlign.pyStrip line)).reverse[3]? = some lane ∧
      (ChampAlign.splitColon (ChampAlign.pyStrip line)).reverse[2]? = some tile ∧
      ChampAlign.parse_read_name_line line
        = some ("lane" ++ lane ++ "tile" ++ tile, ChampAlign.pyStrip line) ∧
      ChampAlign.pyStrip line
        ∈ ChampAlign.load_read_names lines ("lane" ++ lane ++ "tile" ++ tile) := by
  obtain ⟨lane, tile, hlane, htile, hparse⟩ := parse_read_name_line_five_fields line h5
  refine ⟨lane, tile, hlane, htile, hparse, ?_⟩
  exact mem_load_read_names_fold lines _ line _ _ hmem hparse

/-- Witness for C5 on the concrete line `"a:b:1:2101:55:77"`: six fields,
lane `1` (fourth from last), tile `2101` (third from last), grouped under
`lane1tile2101`. -/
theorem champ_load_read_names_groups_by_lane_tile_witness :
    ("a:b:1:2101:55:77" ∈ (["a:b:1:2101:55:77"] : List String)) ∧
    5 ≤ (ChampAlign.splitColon (ChampAlign.pyStrip "a:b:1:2101:55:77")).length ∧
    (∃ lane tile,
      (ChampAlign.splitColon (ChampAlign.pyStrip "a:b:1:2101:55:77")).reverse[3]? = some lane ∧
      (ChampAlign.splitColon (ChampAlign.pyStrip "a:b:1:2101:55:77")).reverse[2]? = some tile ∧
      ChampAlign.parse_read_name_line "a:b:1:2101:55:77"
        = some ("lane" ++ lane ++ "tile" ++ tile, ChampAlign.pyStrip "a:b:1:2101:55:77") ∧
      ChampAlign.pyStrip "a:b:1:2101:55:77"
        ∈ ChampAlign.load_read_names ["a:b:1:2101:55:77"]
            ("lane" ++ lane ++ "tile" ++ tile)) :=
  ⟨by decide, by decide,
    champ_load_read_names_groups_by_lane_tile ["a:b:1:2101:55:77"]
      "a:b:1:2101:55:77" (by decide) (by decide)⟩

/-- C6: when all probed images are present, `check_column_for_alignment`
tries the rows in the order 3, 4, 2, moving to the next row in the sequence
when a row yields no hitting tiles, and records `(hitting tile keys,
column)` for the first row in that order that aligns (none when no row
does): the result is exactly `find?` of a hitting row over `[3, 4, 2]`. -/
theorem champ_check_column_probes_rows_3_4_2
    (grid : ℕ → Option Unit) (hitting : ℕ → List String) (column : ℕ)
    (h : ∀ r ∈ ChampAlign.check_rows, grid r ≠ none) :
    ChampAlign.check_column_for_alignment grid hitting column
      = (ChampAlign.check_rows.find? (fun r => !(hitting r).isEmpty)).map
          (fun r => (hitting r, column)) := by
  have h3 := h 3 (by simp [ChampAlign.check_rows])
  have h4 := h 4 (by simp [ChampAlign.check_rows])
  have h2 := h 2 (by simp [ChampAlign.check_rows])
  obtain ⟨u3, e3⟩ := Option.ne_none_iff_exists'.mp h3
  obtain ⟨u4, e4⟩ := Option.ne_none_iff_exists'.mp h4
  obtain ⟨u2, e2⟩ := Option.ne_none_iff_exists'.mp h2
  simp only [ChampAlign.check_column_for_alignment, ChampAlign.check_rows]
  cases hb3 : (hitting 3).isEmpty <;> cases hb4 : (hitting 4).isEmpty <;>
    cases hb2 : (hitting 2).isEmpty <;>
      simp [ChampAlign.check_column_for_alignment.go, e3, e4, e2, hb3, hb4,
        hb2, List.find?]

/-- Witness for C6: every probed image present, row 3 yields no hits, row 4
hits tile `lane1tile2115`; the recorded result is row 4's tiles with the
probed column 5. -/
theorem champ_check_column_probes_rows_3_4_2_witness :
    (∀ r ∈ ChampAlign.check_rows,
      (fun _ : ℕ => some ()) r ≠ none) ∧
    ChampAlign.check_column_for_alignment (fun _ => some ())
        (fun r => if r = 4 then ["lane1tile2115"] else []) 5
      = ((ChampAlign.check_rows.find?
            (fun r => !((fun r => if r = 4 then ["lane1tile2115"] else []) r).isEmpty)).map
          (fun r => ((fun r => if r = 4 then ["lane1tile2115"] else []) r, 5))) :=
  ⟨by decide,
    champ_check_column_probes_rows_3_4_2 (fun _ => some ())
      (fun r => if r = 4 then ["lane1tile2115"] else []) 5 (by decide)⟩

/-- C7: when the image's `.cat` catalog file does not exist,
`process_alignment_image` returns the aligner unchanged — no image or
catalog is bound, no rough alignment is performed, and no error is raised;
for the freshly copied aligner the orchestrator passes, `hitting_tiles`
stays empty, so `align_fiducial_thread` enqueues nothing and the image is
skipped. -/
theorem champ_process_alignment_image_missing_catalog
    (roughOutcome : List String) (fia : ChampAlign.FIA) (precisionOk : Bool) :
    ChampAlign.process_alignment_image false roughOutcome fia = fia ∧
    (ChampAlign.process_alignment_image false roughOutcome ChampAlign.fresh_fia).hitting_tiles = [] ∧
    (ChampAlign.process_alignment_image false roughOutcome ChampAlign.fresh_fia).roughAligned = false ∧
    ChampAlign.thread_enqueues_result
      (ChampAlign.process_alignment_image false roughOutcome ChampAlign.fresh_fia)
      precisionOk = false :=
  ⟨rfl, rfl, rfl, rfl⟩

/-- C10: every task yielded by `iterate_all_images` has its column in
`[min_column, max_column)`; in particular no task is ever produced for
column `max_column` itself. -/
theorem champ_iterate_all_images_column_range
    (gridHeight : ℕ) (gridImage : ℕ → ℕ → Bool) (min_column max_column : ℕ)
    (tile_map : ℕ → List String) (t : ℕ × ℕ × List String)
    (ht : t ∈ ChampAlign.iterate_all_images gridHeight gridImage min_column
        max_column tile_map) :
    min_column ≤ t.2.1 ∧ t.2.1 < max_column ∧ t.2.1 ≠ max_column := by
  rcases List.mem_flatMap.mp ht with ⟨c, hc, ht2⟩
  rcases List.mem_filterMap.mp ht2 with ⟨r, hr, hres⟩
  rcases List.mem_range'.mp hc with ⟨i, hi, rfl⟩
  by_cases hgi : gridImage r (min_column + 1 * i)
  · rw [if_pos hgi] at hres
    cases hres
    simp only
    omega
  · rw [if_neg hgi] at hres
    cases hres

/-- Witness for C10: a 1-row grid with every image present, columns 2 to 4;
the task `(0, 2, [k])` is yielded and its column 2 satisfies
`2 ≤ 2 < 4 ≠ 4`. -/
theorem champ_iterate_all_images_column_range_witness :
    ((0, 2, ["k"]) : ℕ × ℕ × List String)
        ∈ ChampAlign.iterate_all_images 1 (fun _ _ => true) 2 4 (fun _ => ["k"]) ∧
    (2 ≤ ((0, 2, ["k"]) : ℕ × ℕ × List String).2.1 ∧
      ((0, 2, ["k"]) : ℕ × ℕ × List String).2.1 < 4 ∧
      ((0, 2, ["k"]) : ℕ × ℕ × List String).2.1 ≠ 4) :=
  ⟨by decide,
    champ_iterate_all_images_column_range 1 (fun _ _ => true) 2 4
      (fun _ => ["k"]) (0, 2, ["k"]) (by decide)⟩
